import Mathlib

/-!
Verification of the rc_mpu IMU driver core (StrawsonDesign/rc_mpu).

Shallow embedding of the C source in `src/`:
* `src/src/mpu/mpu.c` — MPU-9250 driver: who-am-I check, DMP FIFO reader,
  data fusion, calibration routines, bank-paged DMP memory access.
* `src/src/math/linear_algebra.c` — Gaussian elimination solver.

Machine integers are modelled as `Nat`/`Int` with explicit two's-complement
wrapping where C overflow/conversion semantics matter; C float/double
arithmetic is idealized as exact rational arithmetic over `ℚ`.
-/

namespace RcMpu

/-! ## C1 — `__check_who_am_i` (mpu.c lines 455-471)

The C source reads the WHO_AM_I register into `uint8_t c` and then:
```
if(c!=0x68 && c!=0x69 && c!=0x70 && c!=0x71 && c!=75){ ... return -1; }
return 0;
```
Note the last literal is the decimal `75` (0x4B), while the adjacent
comment and error message both say `0x75` is the expected value for the
MPU-9255. -/

/-- Embedding of `__check_who_am_i` as a function of the byte read back
from the WHO_AM_I register; returns the C return code. -/
def check_who_am_i (c : ℕ) : ℤ :=
  if c ≠ 0x68 ∧ c ≠ 0x69 ∧ c ≠ 0x70 ∧ c ≠ 0x71 ∧ c ≠ 75 then -1 else 0

/-! ## C2 — FIFO byte-count classification in `__read_dmp_fifo`
(mpu.c lines 1952-1998)

`packet_len` is either `FIFO_LEN_QUAT_TAP = 20` or
`FIFO_LEN_QUAT_ACCEL_GYRO_TAP = 32` (checked at line 1928).  The
classification chain sets the parse offset `i` (start of the packet whose
quaternion/accel/gyro/tap fields are parsed), or aborts the tick. -/

/-- FIFO packet length with quaternion and tap only (`FIFO_LEN_QUAT_TAP`). -/
def FIFO_LEN_QUAT_TAP : ℕ := 20

/-- FIFO packet length with quaternion, accel, gyro and tap
(`FIFO_LEN_QUAT_ACCEL_GYRO_TAP`). -/
def FIFO_LEN_QUAT_ACCEL_GYRO_TAP : ℕ := 32

/-- Outcome of the fifo_count classification step of `__read_dmp_fifo`. -/
inductive FifoCountAction : Type
  /-- `fifo_count == 0`: return -1 immediately, no FIFO reset. -/
  | abortNoReset : FifoCountAction
  /-- read all `fifo_count` bytes and parse the packet starting at
  byte offset `i`. -/
  | proceed (i : ℕ) : FifoCountAction
  /-- unrecognized byte count: call `__mpu_reset_fifo()` and return -1. -/
  | resetAbort : FifoCountAction
  deriving DecidableEq, Repr

/-- Embedding of the fifo_count if/else chain of `__read_dmp_fifo`
(mpu.c lines 1954-1998). -/
def classify_fifo_count (packet_len fifo_count : ℕ) : FifoCountAction :=
  if fifo_count = 0 then .abortNoReset
  else if fifo_count = packet_len then .proceed 0
  else if fifo_count = 2 * packet_len then .proceed packet_len
  else if fifo_count = 3 * packet_len then .proceed (2 * packet_len)
  else if fifo_count = 4 * packet_len then .proceed (2 * packet_len)
  else if fifo_count = 5 * packet_len then .proceed (2 * packet_len)
  else .resetAbort

/-! ## C3 — DMP quaternion magnitude check in `__read_dmp_fifo`
(mpu.c lines 2021-2046)

The four quaternion words are assembled from big-endian bytes with
`(long)raw[i+0] << 24 | (long)raw[i+1] << 16 | (long)raw[i+2] << 8 | raw[i+3]`.
On the 32-bit ARM target `long` is 32 bits, so the assembled value wraps
into the signed 32-bit range; `quat[j] >> 16` is gcc's arithmetic shift
(floor division by 2^16).  The Q14 magnitude squared is compared against
`QUAT_MAG_SQ_MIN/MAX`. -/

/-- Two's-complement wrap of an integer into the signed 32-bit range,
modelling storage in a 32-bit `long`. -/
def toInt32 (n : ℤ) : ℤ :=
  if n % 2 ^ 32 < 2 ^ 31 then n % 2 ^ 32 else n % 2 ^ 32 - 2 ^ 32

/-- Embedding of the quaternion-word assembly in `__read_dmp_fifo`:
`(long)b0 << 24 | (long)b1 << 16 | (long)b2 << 8 | b3`, wrapped into a
32-bit `long`. -/
def dmp_quat_word (b0 b1 b2 b3 : ℕ) : ℤ :=
  toInt32 (b0 <<< 24 ||| b1 <<< 16 ||| b2 <<< 8 ||| b3 : ℕ)

/-- `QUAT_ERROR_THRESH` (mpu.c line 53): `1L << 16`. -/
def QUAT_ERROR_THRESH : ℤ := 1 <<< 16

/-- `QUAT_MAG_SQ_NORMALIZED` (mpu.c line 54): `1L << 28`. -/
def QUAT_MAG_SQ_NORMALIZED : ℤ := 1 <<< 28

/-- `QUAT_MAG_SQ_MIN` (mpu.c line 55). -/
def QUAT_MAG_SQ_MIN : ℤ := QUAT_MAG_SQ_NORMALIZED - QUAT_ERROR_THRESH

/-- `QUAT_MAG_SQ_MAX` (mpu.c line 56). -/
def QUAT_MAG_SQ_MAX : ℤ := QUAT_MAG_SQ_NORMALIZED + QUAT_ERROR_THRESH

/-- The Q14 magnitude squared computed by `__read_dmp_fifo`
(lines 2034-2039): each word is shifted right by 16 (gcc arithmetic
shift on `long`, i.e. floor division by 2^16) and the squares summed.
`b` is the 16-byte quaternion segment of the packet being parsed. -/
def dmp_quat_mag_sq (b : Fin 16 → ℕ) : ℤ :=
  let q0 := (dmp_quat_word (b 0) (b 1) (b 2) (b 3)).fdiv (2 ^ 16)
  let q1 := (dmp_quat_word (b 4) (b 5) (b 6) (b 7)).fdiv (2 ^ 16)
  let q2 := (dmp_quat_word (b 8) (b 9) (b 10) (b 11)).fdiv (2 ^ 16)
  let q3 := (dmp_quat_word (b 12) (b 13) (b 14) (b 15)).fdiv (2 ^ 16)
  q0 * q0 + q1 * q1 + q2 * q2 + q3 * q3

/-- The validity gate of `__read_dmp_fifo` (line 2040): `true` means the
tick fails and `__mpu_reset_fifo()` is called; `false` means execution
continues to the double-precision normalization and publication of the
quaternion (lines 2048-2060), with no further reset in this function. -/
def dmp_quat_gate (b : Fin 16 → ℕ) : Bool :=
  dmp_quat_mag_sq b < QUAT_MAG_SQ_MIN || dmp_quat_mag_sq b > QUAT_MAG_SQ_MAX

/-- Signed big-endian int32 interpretation of four bytes, written from
the spec's words ("four big-endian int32 quaternion words") for the
refinement comparison with the code's assembly. -/
def beInt32_spec (b0 b1 b2 b3 : ℕ) : ℤ :=
  (if b0 < 128 then 0 else -(2 ^ 32)) +
    ((b0 : ℤ) * 2 ^ 24 + b1 * 2 ^ 16 + b2 * 2 ^ 8 + b3)

/-- The spec's Q14 magnitude squared: sum of squares of the four
big-endian int32 quaternion words each arithmetically shifted right
by 16 (floor division by 2^16). -/
def quat_mag_sq_spec (b : Fin 16 → ℕ) : ℤ :=
  (beInt32_spec (b 0) (b 1) (b 2) (b 3)).fdiv (2 ^ 16) ^ 2 +
  (beInt32_spec (b 4) (b 5) (b 6) (b 7)).fdiv (2 ^ 16) ^ 2 +
  (beInt32_spec (b 8) (b 9) (b 10) (b 11)).fdiv (2 ^ 16) ^ 2 +
  (beInt32_spec (b 12) (b 13) (b 14) (b 15)).fdiv (2 ^ 16) ^ 2

/-! ## C4 — sanity checks in `rc_mpu_calibrate_mag_routine`
(mpu.c lines 2896-2946)

After the ellipsoid fit produces `center` and `lengths`, the routine:
* aborts (returning -1, file untouched) when any `|center[k]| > 200`
  (lines 2909-2915);
* for `lengths[k] > 200 || lengths[k] < 5` it only prints
  "WARNING: length of fitted ellipsoid out of bounds" — the
  `rc_vector_free`/`return -1` lines are commented out (lines 2916-2923) —
  and execution falls through;
* computes `new_scale[k] = 70.0f / lengths[k]` and writes the six values
  to `mag.cal` (lines 2927-2943).

C float arithmetic is idealized over `ℚ`. -/

/-- Outcome of the post-fit portion of `rc_mpu_calibrate_mag_routine`. -/
inductive MagCalOutcome : Type
  /-- center sanity check failed: return -1, `mag.cal` not written. -/
  | abortCenterOutOfBounds : MagCalOutcome
  /-- `__write_mag_cal_to_disk(center, scale)` is called with these six
  values. -/
  | fileWritten (off0 off1 off2 s0 s1 s2 : ℚ) : MagCalOutcome
  deriving DecidableEq

/-- Embedding of `rc_mpu_calibrate_mag_routine` from the sanity checks to
the file write, as a function of the fitted ellipsoid center and axis
half-lengths. -/
def calibrate_mag_finish (c0 c1 c2 l0 l1 l2 : ℚ) : MagCalOutcome :=
  if |c0| > 200 ∨ |c1| > 200 ∨ |c2| > 200 then .abortCenterOutOfBounds
  else .fileWritten c0 c1 c2 (70 / l0) (70 / l1) (70 / l2)

/-! ## C5 — gyro calibration persistence
(`rc_mpu_calibrate_gyro_routine`, mpu.c lines 2548-2570;
`write_gyro_offets_to_disk`, lines 2311-2339;
`__load_gyro_offets`, lines 2347-2394)

The calibration routine computes
`offsets[k] = (int16_t)(gyro_sum[k] / (int32_t)samples)` (C truncating
division) and writes the three values as decimal lines.  On
re-initialization `__load_gyro_offets` reads integers `x,y,z` (0,0,0
when the file is missing) and writes six bytes starting at
`XG_OFFSET_H`:
```
data[0] = (-x/4  >> 8) & 0xFF;  data[1] = (-x/4) & 0xFF;  ...
```
`-x/4` is C truncating division; `>> 8` on a negative `int` is gcc's
arithmetic shift (floor division by 256); `& 0xFF` of a two's-complement
`int` is the nonnegative remainder mod 256. -/

/-- Two's-complement wrap into the signed 16-bit range, modelling the
`(int16_t)` cast. -/
def toInt16 (n : ℤ) : ℤ :=
  if n % 2 ^ 16 < 2 ^ 15 then n % 2 ^ 16 else n % 2 ^ 16 - 2 ^ 16

/-- Per-axis mean computed by `rc_mpu_calibrate_gyro_routine`
(line 2549): the sum of the (int16) samples, C-truncating-divided by the
sample count, cast to `int16_t`. -/
def gyro_cal_offset (samples : List ℤ) : ℤ :=
  toInt16 (samples.sum.tdiv samples.length)

/-- Contents of `gyro.cal` written by `write_gyro_offets_to_disk`: three
decimal integer lines, one per axis.  A missing file is modelled as
`none`. -/
def gyro_cal_file (xs ys zs : List ℤ) : Option (ℤ × ℤ × ℤ) :=
  some (gyro_cal_offset xs, gyro_cal_offset ys, gyro_cal_offset zs)

/-- High byte of a gyro bias register pair in `__load_gyro_offets`:
`(-v/4 >> 8) & 0xFF`. -/
def gyro_offset_reg_hi (v : ℤ) : ℤ := (((-v).tdiv 4).fdiv (2 ^ 8)) % 2 ^ 8

/-- Low byte of a gyro bias register pair in `__load_gyro_offets`:
`(-v/4) & 0xFF`. -/
def gyro_offset_reg_lo (v : ℤ) : ℤ := ((-v).tdiv 4) % 2 ^ 8

/-- Embedding of `__load_gyro_offets`: read `x,y,z` from `gyro.cal`
(0,0,0 when the file is missing) and produce the six bytes written to
registers `XG_OFFSET_H` through `ZG_OFFSET_L`. -/
def load_gyro_offets (file : Option (ℤ × ℤ × ℤ)) : List ℤ :=
  let v := file.getD (0, 0, 0)
  [gyro_offset_reg_hi v.1, gyro_offset_reg_lo v.1,
   gyro_offset_reg_hi v.2.1, gyro_offset_reg_lo v.2.1,
   gyro_offset_reg_hi v.2.2, gyro_offset_reg_lo v.2.2]

/-! ## C6 — yaw reduction in `__data_fusion` (mpu.c lines 2286-2298)

```
newYaw = rc_filter_march(&low_pass, ...) + rc_filter_march(&high_pass, ...);
newYaw = fmod(newYaw,TWO_PI);
if (newYaw > PI) newYaw -= TWO_PI;
else if (newYaw < -PI) newYaw += TWO_PI;
```
then `newYaw` is stored into `data->compass_heading` and
`data->fused_TaitBryan[2]`.  Float/double arithmetic is idealized over
`ℚ`, with the constant `PI` (= `M_PI`) as a positive parameter `p`;
`fmod` truncates toward zero. -/

/-- Truncation toward zero of a rational (the integral quotient
underlying C's `fmod`). -/
def ratTrunc (q : ℚ) : ℤ := if 0 ≤ q then ⌊q⌋ else -⌊-q⌋

/-- C `fmod(x, y)`: `x - y * trunc(x / y)` (exact for `y ≠ 0`). -/
def fmodQ (x y : ℚ) : ℚ := x - y * ratTrunc (x / y)

/-- Embedding of the yaw reduction at the end of `__data_fusion`
(lines 2289-2291): `fmod` by `2π` then a one-sided `±2π` correction.
`p` stands for the code's `PI` constant. -/
def fused_yaw_reduce (p x : ℚ) : ℚ :=
  if fmodQ x (2 * p) > p then fmodQ x (2 * p) - 2 * p
  else if fmodQ x (2 * p) < -p then fmodQ x (2 * p) + 2 * p
  else fmodQ x (2 * p)

/-! ## C7 — `rc_algebra_lin_system_solve`
(linear_algebra.c lines 425-505, `zero_tolerance` lines 22-25)

The pivot search (lines 457-465) initializes `fMaxElem = fabs(A[k][k])`,
then for each lower row compares `fMaxElem < fabs(A[i][k])` but stores
`fMaxElem = A[i][k]` — without `fabs`.  The elimination loop runs
`k = 0 .. nDim-2`; only those diagonal entries are checked against
`zero_tolerance`, the final pivot `A[nDim-1][nDim-1]` is used in back
substitution unchecked.  Floats are idealized over `ℚ` (ℚ division by
zero yields 0 where C would produce inf/nan; the return code, which is
what the claim describes, is unaffected). -/

/-- `DEFAULT_ZERO_TOLERANCE` (linear_algebra.c line 22): `1e-8`. -/
def zero_tolerance : ℚ := 1 / 10 ^ 8

/-- Matrix entry access `A[i][j]` (out-of-range reads yield 0; the code
never reads out of range for well-formed inputs). -/
def getE (A : List (List ℚ)) (i j : ℕ) : ℚ := (A.getD i []).getD j 0

/-- The inner pivot-search loop (lines 460-465): walk the candidates,
carrying `fMaxElem` and the best row index `m`.  Faithfully to the
source, the accepted candidate is stored RAW (`fMaxElem = Atemp.d[i][k]`,
no `fabs`), although the comparison uses `fabs`. -/
def pivot_scan : List ℚ → ℚ → ℕ → ℕ → ℕ
  | [], _, m, _ => m
  | a :: rest, fMax, m, i =>
    if fMax < |a| then pivot_scan rest a i (i + 1)
    else pivot_scan rest fMax m (i + 1)

/-- The pivot search of elimination step `k` (lines 457-465):
`fMaxElem = fabs(A[k][k])`, `m = k`, then scan rows `k+1 ..`. -/
def pivot_search (diag : ℚ) (below : List ℚ) (k : ℕ) : ℕ :=
  pivot_scan below |diag| k (k + 1)

/-- The subcolumn `A[k+1][k] .. A[n-1][k]` scanned by the pivot search. -/
def col_below (A : List (List ℚ)) (n k : ℕ) : List ℚ :=
  (List.range (n - (k + 1))).map fun t => getE A (k + 1 + t) k

/-- Row swap of lines 467-476: entries `i ≥ k` of rows `k` and `m` are
exchanged (earlier columns are never read again). -/
def swap_suffix (A : List (List ℚ)) (k m : ℕ) : List (List ℚ) :=
  A.mapIdx fun j row =>
    if j = k then row.take k ++ (A.getD m []).drop k
    else if j = m then row.take k ++ (A.getD k []).drop k
    else row

/-- The matching swap of `b[k]` and `b[m]` (lines 473-475). -/
def swap_b (b : List ℚ) (k m : ℕ) : List ℚ :=
  b.mapIdx fun j v =>
    if j = k then b.getD m 0 else if j = m then b.getD k 0 else v

/-- The triangulation step of lines 486-493: each row `j > k` gets
`fAcc = -A[j][k]/A[k][k]` times row `k` added to its entries `i ≥ k`,
and `b[j] += fAcc * b[k]`. -/
def eliminate (A : List (List ℚ)) (b : List ℚ) (k : ℕ) :
    List (List ℚ) × List ℚ :=
  let piv := getE A k k
  (A.mapIdx fun j row =>
      if k < j then
        let fAcc := -(getE A j k) / piv
        row.mapIdx fun i v => if k ≤ i then v + fAcc * getE A k i else v
      else row,
   b.mapIdx fun j v =>
      if k < j then v + (-(getE A j k) / piv) * b.getD k 0 else v)

/-- The elimination loop of lines 456-494: steps `k = 0 .. n-2`, with
the pivot swap and the `zero_tolerance` check after the swap; `none`
models the `return -1` (matrix not full rank).  The loop is driven by
the remaining iteration count `fuel = (n-1) - k`, so the recursion is
structural. -/
def gauss_steps (n : ℕ) : ℕ → ℕ → (List (List ℚ) × List ℚ) →
    Option (List (List ℚ) × List ℚ)
  | 0, _, Ab => some Ab
  | fuel + 1, k, Ab =>
    let m := pivot_search (getE Ab.1 k k) (col_below Ab.1 n k) k
    let Ab1 := if m ≠ k then (swap_suffix Ab.1 k m, swap_b Ab.2 k m) else Ab
    if |getE Ab1.1 k k| < zero_tolerance then none
    else gauss_steps n fuel (k + 1) (eliminate Ab1.1 Ab1.2 k)

/-- Back substitution (lines 496-500), from the last row upward;
`acc` carries the already-solved tail `x[i+1] .. x[n-1]`. -/
def back_sub (A : List (List ℚ)) (b : List ℚ) : ℕ → List ℚ → List ℚ
  | 0, acc => acc
  | i + 1, acc =>
    let dot := (List.zipWith (· * ·) ((A.getD i []).drop (i + 1)) acc).sum
    back_sub A b i (((b.getD i 0) - dot) / getE A i i :: acc)

/-- Embedding of `rc_algebra_lin_system_solve` for a square system with
`nDim = b.len` (the argument-validity checks of lines 429-436 are the
caller contract assumed by the claim). -/
def lin_system_solve (A : List (List ℚ)) (b : List ℚ) : Option (List ℚ) :=
  match gauss_steps b.length (b.length - 1) 0 (A, b) with
  | none => none
  | some Ab => some (back_sub Ab.1 Ab.2 b.length [])

/-! ## C8 — bank-paged DMP memory access
(`__mpu_write_mem` mpu.c lines 996-1016, `__mpu_read_mem` lines 1027-1047)

```
tmp[0] = (unsigned char)(mem_addr >> 8);
tmp[1] = (unsigned char)(mem_addr & 0xFF);
if (tmp[1] + length > MPU6500_BANK_SIZE) return -1;   // before any I2C op
rc_i2c_write_bytes(bus, MPU6500_BANK_SEL, 2, tmp);
rc_i2c_write_bytes(bus, MPU6500_MEM_R_W, length, data);   // read: read_bytes
```
The register constants live in `mpu_defs.h`, which is not present under
`src/`; they are modelled from the spec below. -/

/-- Modelled from the spec: `MPU6500_BANK_SEL` from the missing
`mpu_defs.h` — spec §6 "DMP bank select (`0x6D`), mem address (`0x6E`)";
the driver writes the two bytes `[bank, start]` in one transfer starting
at the bank-select register. -/
def MPU6500_BANK_SEL : ℕ := 0x6D

/-- Modelled from the spec: `MPU6500_MEM_R_W` from the missing
`mpu_defs.h` — spec §6 "mem R/W (`0x6F`)". -/
def MPU6500_MEM_R_W : ℕ := 0x6F

/-- Modelled from the spec: `MPU6500_BANK_SIZE` from the missing
`mpu_defs.h` — spec glossary: DMP RAM pages are 256 bytes. -/
def MPU6500_BANK_SIZE : ℕ := 256

/-- An I2C transfer issued by the driver. -/
inductive I2COp : Type
  /-- `rc_i2c_write_bytes(bus, reg, n, bytes)`. -/
  | writeBytes (reg : ℕ) (bytes : List ℕ) : I2COp
  /-- `rc_i2c_read_bytes(bus, reg, n, buf)`. -/
  | readBytes (reg : ℕ) (len : ℕ) : I2COp
  deriving DecidableEq

/-- Embedding of `__mpu_write_mem` for a valid (non-NULL) payload:
the result is the list of I2C transfers issued, or `none` for the
`return -1` taken before any transfer. -/
def mpu_write_mem (mem_addr : ℕ) (data : List ℕ) : Option (List I2COp) :=
  let tmp0 := (mem_addr >>> 8) % 256
  let tmp1 := mem_addr % 256
  if tmp1 + data.length > MPU6500_BANK_SIZE then none
  else some [.writeBytes MPU6500_BANK_SEL [tmp0, tmp1],
             .writeBytes MPU6500_MEM_R_W data]

/-- Embedding of `__mpu_read_mem`, symmetric to `mpu_write_mem` with the
payload transfer being a read. -/
def mpu_read_mem (mem_addr : ℕ) (length : ℕ) : Option (List I2COp) :=
  let tmp0 := (mem_addr >>> 8) % 256
  let tmp1 := mem_addr % 256
  if tmp1 + length > MPU6500_BANK_SIZE then none
  else some [.writeBytes MPU6500_BANK_SEL [tmp0, tmp1],
             .readBytes MPU6500_MEM_R_W length]

/-! ## C9 — DLPF/FSR substitution in `rc_mpu_initialize_dmp`
(mpu.c lines 776-797)

The four checks each print a WARNING and overwrite the offending field
of the by-value `conf` argument; none of them returns an error, and line
799 commits the modified copy (`config = conf`), so initialization
proceeds with the substituted values.  The enums are from
`include/rc/mpu.h` lines 42-89. -/

/-- `rc_mpu_gyro_dlpf_t` (mpu.h lines 80-89). -/
inductive GyroDlpf : Type
  | off | bw250 | bw184 | bw92 | bw41 | bw20 | bw10 | bw5
  deriving DecidableEq

/-- `rc_mpu_accel_dlpf_t` (mpu.h lines 64-73). -/
inductive AccelDlpf : Type
  | off | bw460 | bw184 | bw92 | bw41 | bw20 | bw10 | bw5
  deriving DecidableEq

/-- `rc_mpu_gyro_fsr_t` (mpu.h lines 52-57). -/
inductive GyroFsr : Type
  | dps250 | dps500 | dps1000 | dps2000
  deriving DecidableEq

/-- `rc_mpu_accel_fsr_t` (mpu.h lines 42-47). -/
inductive AccelFsr : Type
  | g2 | g4 | g8 | g16
  deriving DecidableEq

/-- The four configuration fields checked by the DLPF/FSR block of
`rc_mpu_initialize_dmp`. -/
structure DmpRangeConf : Type where
  gyro_dlpf : GyroDlpf
  accel_dlpf : AccelDlpf
  gyro_fsr : GyroFsr
  accel_fsr : AccelFsr
  deriving DecidableEq

/-- Embedding of mpu.c lines 776-797: each disallowed value is replaced
(with only a warning printed); the block has no failure path. -/
def initialize_dmp_range_fixup (c : DmpRangeConf) : DmpRangeConf :=
  { gyro_dlpf :=
      if c.gyro_dlpf = .off ∨ c.gyro_dlpf = .bw250 then .bw184 else c.gyro_dlpf
    accel_dlpf :=
      if c.accel_dlpf = .off ∨ c.accel_dlpf = .bw460 then .bw184 else c.accel_dlpf
    gyro_fsr := if c.gyro_fsr ≠ .dps2000 then .dps2000 else c.gyro_fsr
    accel_fsr := if c.accel_fsr ≠ .g2 then .g2 else c.accel_fsr }

/-! ## C10 — `rc_mpu_read_mag` (mpu.c lines 322-395)

After reading ST1, the function returns 0 without touching the output
record when the data-ready bit is clear (lines 349-354); after reading
the 7 data bytes it returns -1 (discarding the data, record untouched)
when the ST2 saturation bit is set (lines 362-367); otherwise it parses
the little-endian int16 triple, applies factory sensitivity, the
`(x,y,z) <- (y,x,-z)` axis reorder, and the user offset/scale (with a
zero scale replaced by 1), stores into `data->mag` and returns 0.
The two status-bit tests are passed in as booleans (the mask values live
in the missing `mpu_defs.h`; the code only branches on them).  Float
arithmetic is idealized over `ℚ`. -/

/-- Result of `rc_mpu_read_mag`: the C return code together with the
written `data->mag` triple, `none` when the record is left untouched. -/
def rc_mpu_read_mag (dataReady overflow : Bool)
    (raw : Fin 7 → ℕ) (adj0 adj1 adj2 rawToUT : ℚ)
    (off0 off1 off2 s0 s1 s2 : ℚ) : ℤ × Option (ℚ × ℚ × ℚ) :=
  if dataReady = false then (0, none)
  else if overflow = true then (-1, none)
  else
    let adc0 : ℤ := toInt16 (raw 1 <<< 8 ||| raw 0 : ℕ)
    let adc1 : ℤ := toInt16 (raw 3 <<< 8 ||| raw 2 : ℕ)
    let adc2 : ℤ := toInt16 (raw 5 <<< 8 ||| raw 4 : ℕ)
    let f0 := (adc1 : ℚ) * adj1 * rawToUT
    let f1 := (adc0 : ℚ) * adj0 * rawToUT
    let f2 := -(adc2 : ℚ) * adj2 * rawToUT
    let t0 := if s0 = 0 then 1 else s0
    let t1 := if s1 = 0 then 1 else s1
    let t2 := if s2 = 0 then 1 else s2
    (0, some ((f0 - off0) * t0, (f1 - off1) * t1, (f2 - off2) * t2))

/-! ## Theorems

Helper lemmas first, then for each claim its counterexample (where the
claim as stated fails on the code), the claim theorem, and its witness
at a concrete input. -/

/-- Claim C1: the who-am-I check should succeed exactly on
{0x68, 0x69, 0x70, 0x71, 0x75}.  The code instead tests the decimal
literal `75` (= 0x4B): it rejects 0x75 (= 117, the MPU-9255 id that its
own comment and error message declare valid) and accepts 0x4B. -/
theorem check_who_am_i_rejects_0x75_accepts_0x4B :
    check_who_am_i 0x75 = -1 ∧ check_who_am_i 0x4B = 0 ∧ (0x4B : ℕ) = 75 := by
  refine ⟨?_, ?_, ?_⟩ <;> decide

/-- Claim C2 counterexample: with `packet_len = 20` and
`fifo_count = 5 * 20 = 100`, the parse offset is `2 * packet_len = 40`
(the third-to-last of the five packets), not the second-to-last packet
(offset `3 * packet_len = 60`) stated by the claim. -/
theorem classify_fifo_count_five_packets_not_second_last :
    classify_fifo_count 20 100 = .proceed 40 ∧ (40 : ℕ) ≠ 3 * 20 := by
  exact ⟨by decide, by decide⟩

/-- Claim C2 (amended): for `packet_len ∈ {20, 32}`:
a zero byte count aborts the tick without a reset; `k·packet_len` for
`k ∈ {1,2,3}` proceeds parsing the last packet (offset `(k-1)·packet_len`);
`4·packet_len` and `5·packet_len` both proceed with the offset fixed at
`2·packet_len` (second-to-last packet for 4x, third-to-last for 5x);
every other byte count resets the FIFO and aborts the tick. -/
theorem classify_fifo_count_spec (pl c : ℕ)
    (hpl : pl = FIFO_LEN_QUAT_TAP ∨ pl = FIFO_LEN_QUAT_ACCEL_GYRO_TAP) :
    (c = 0 → classify_fifo_count pl c = .abortNoReset) ∧
    (∀ k, 1 ≤ k → k ≤ 3 → c = k * pl →
      classify_fifo_count pl c = .proceed ((k - 1) * pl)) ∧
    ((c = 4 * pl ∨ c = 5 * pl) → classify_fifo_count pl c = .proceed (2 * pl)) ∧
    (c ≠ 0 → (∀ k, 1 ≤ k → k ≤ 5 → c ≠ k * pl) →
      classify_fifo_count pl c = .resetAbort) := by
  have hpl0 : pl = 20 ∨ pl = 32 := hpl
  refine ⟨?_, ?_, ?_, ?_⟩
  · intro h0
    simp [classify_fifo_count, h0]
  · intro k hk1 hk3 hc
    interval_cases k <;> subst hc <;> rcases hpl0 with h | h <;> subst h <;> rfl
  · intro hc
    rcases hc with h | h <;> subst h <;> rcases hpl0 with h | h <;> subst h <;> rfl
  · intro h0 hk
    have h1 : c ≠ pl := by simpa using hk 1 (by norm_num) (by norm_num)
    have h2 : c ≠ 2 * pl := hk 2 (by norm_num) (by norm_num)
    have h3 : c ≠ 3 * pl := hk 3 (by norm_num) (by norm_num)
    have h4 : c ≠ 4 * pl := hk 4 (by norm_num) (by norm_num)
    have h5 : c ≠ 5 * pl := hk 5 (by norm_num) (by norm_num)
    simp [classify_fifo_count, h0, h1, h2, h3, h4, h5]

/-- Witness for the amended C2 theorem at `packet_len = 20`,
`fifo_count = 100`. -/
theorem classify_fifo_count_spec_witness :
    classify_fifo_count 20 100 = .proceed (2 * 20) :=
  (classify_fifo_count_spec 20 100 (Or.inl rfl)).2.2.1 (Or.inr rfl)

/-- Helper: bitwise-or with a shifted value is addition when the low part
fits below the shift. -/
theorem shiftLeft_lor_eq_add :
    ∀ (k x y : ℕ), y < 2 ^ k → x <<< k ||| y = x * 2 ^ k + y := by
  intro k
  induction k with
  | zero =>
    intro x y hy
    interval_cases y
    simp
  | succ k ih =>
    intro x y hy
    have hd : Nat.div2 y < 2 ^ k := by
      have h2 : Nat.div2 y = y / 2 := Nat.div2_val y
      have hp : (2:ℕ) ^ (k+1) = 2 * 2 ^ k := by ring
      omega
    have hbit : x <<< (k+1) = Nat.bit false (x <<< k) := by
      simp [Nat.bit, Nat.shiftLeft_eq, pow_succ]
      ring
    calc x <<< (k+1) ||| y
        = Nat.bit false (x <<< k) ||| Nat.bit (Nat.bodd y) (Nat.div2 y) := by
          rw [← hbit, Nat.bit_decomp]
      _ = Nat.bit (false || Nat.bodd y) (x <<< k ||| Nat.div2 y) := by
          rw [Nat.lor_bit]
      _ = Nat.bit (Nat.bodd y) (x * 2 ^ k + Nat.div2 y) := by
          rw [Bool.false_or, ih x _ hd]
      _ = x * 2 ^ (k+1) + y := by
          rw [Nat.bit_val]
          have hb := Nat.bodd_add_div2 y
          have hp : x * 2 ^ (k+1) = 2 * (x * 2 ^ k) := by ring
          omega

/-- The code's word assembly agrees with the signed big-endian
interpretation for in-range bytes. -/
theorem dmp_quat_word_eq_beInt32 (b0 b1 b2 b3 : ℕ)
    (h0 : b0 < 256) (h1 : b1 < 256) (h2 : b2 < 256) (h3 : b3 < 256) :
    dmp_quat_word b0 b1 b2 b3 = beInt32_spec b0 b1 b2 b3 := by
  have e3 : b2 <<< 8 ||| b3 = b2 * 2 ^ 8 + b3 :=
    shiftLeft_lor_eq_add 8 b2 b3 (by omega)
  have l3 : b2 * 2 ^ 8 + b3 < 2 ^ 16 := by omega
  have e2 : b1 <<< 16 ||| (b2 <<< 8 ||| b3) = b1 * 2 ^ 16 + (b2 * 2 ^ 8 + b3) := by
    rw [e3]; exact shiftLeft_lor_eq_add 16 b1 _ l3
  have l2 : b1 * 2 ^ 16 + (b2 * 2 ^ 8 + b3) < 2 ^ 24 := by omega
  have e1 : b0 <<< 24 ||| (b1 <<< 16 ||| (b2 <<< 8 ||| b3)) =
      b0 * 2 ^ 24 + (b1 * 2 ^ 16 + (b2 * 2 ^ 8 + b3)) := by
    rw [e2]; exact shiftLeft_lor_eq_add 24 b0 _ l2
  have esum : (b0 <<< 24 ||| b1 <<< 16 ||| b2 <<< 8 ||| b3 : ℕ) =
      b0 * 2 ^ 24 + b1 * 2 ^ 16 + b2 * 2 ^ 8 + b3 := by
    rw [Nat.lor_assoc, Nat.lor_assoc, e1]; ring
  unfold dmp_quat_word toInt32 beInt32_spec
  rw [esum]
  have hlt : b0 * 2 ^ 24 + b1 * 2 ^ 16 + b2 * 2 ^ 8 + b3 < 2 ^ 32 := by omega
  push_cast
  rw [Int.emod_eq_of_lt (by positivity) (by exact_mod_cast hlt)]
  rcases Nat.lt_or_ge b0 128 with hb | hb
  · rw [if_pos, if_pos (by exact_mod_cast hb)]
    · ring
    · have : b0 * 2 ^ 24 + b1 * 2 ^ 16 + b2 * 2 ^ 8 + b3 < 2 ^ 31 := by omega
      exact_mod_cast this
  · rw [if_neg, if_neg (by exact_mod_cast Nat.not_lt.mpr hb)]
    · ring
    · have : ¬(b0 * 2 ^ 24 + b1 * 2 ^ 16 + b2 * 2 ^ 8 + b3 < 2 ^ 31) := by omega
      push_neg
      exact_mod_cast Nat.not_lt.mp (by omega)

/-- Claim C3: for every 16-byte quaternion segment parsed by
`__read_dmp_fifo`, the tick fails with a FIFO reset if and only if the
Q14 magnitude squared (sum of squares of the four big-endian int32 words
arithmetically shifted right by 16) lies outside
`[2^28 - 2^16, 2^28 + 2^16]`; when it is within bounds the function
continues to normalize and publish the quaternion and this check
triggers no reset. -/
theorem dmp_quat_gate_iff (b : Fin 16 → ℕ) (h : ∀ j, b j < 256) :
    dmp_quat_gate b = true ↔
      quat_mag_sq_spec b < 2 ^ 28 - 2 ^ 16 ∨ 2 ^ 28 + 2 ^ 16 < quat_mag_sq_spec b := by
  have hw : dmp_quat_mag_sq b = quat_mag_sq_spec b := by
    unfold dmp_quat_mag_sq quat_mag_sq_spec
    rw [dmp_quat_word_eq_beInt32 _ _ _ _ (h 0) (h 1) (h 2) (h 3),
        dmp_quat_word_eq_beInt32 _ _ _ _ (h 4) (h 5) (h 6) (h 7),
        dmp_quat_word_eq_beInt32 _ _ _ _ (h 8) (h 9) (h 10) (h 11),
        dmp_quat_word_eq_beInt32 _ _ _ _ (h 12) (h 13) (h 14) (h 15)]
    ring
  unfold dmp_quat_gate
  rw [hw]
  have hmin : QUAT_MAG_SQ_MIN = 2 ^ 28 - 2 ^ 16 := by decide
  have hmax : QUAT_MAG_SQ_MAX = 2 ^ 28 + 2 ^ 16 := by decide
  rw [hmin, hmax]
  simp [Bool.or_eq_true, decide_eq_true_eq]

/-- Witness for C3 at the Q30 identity quaternion `[1,0,0,0]`
(bytes `0x40 00 00 00` then zeros): magnitude squared is exactly `2^28`,
inside the bounds, so the gate does not fire. -/
theorem dmp_quat_gate_iff_witness :
    dmp_quat_gate (fun j => [0x40,0,0,0, 0,0,0,0, 0,0,0,0, 0,0,0,0].getD j 0) = true ↔
      quat_mag_sq_spec (fun j => [0x40,0,0,0, 0,0,0,0, 0,0,0,0, 0,0,0,0].getD j 0)
          < 2 ^ 28 - 2 ^ 16 ∨
        2 ^ 28 + 2 ^ 16 <
          quat_mag_sq_spec (fun j => [0x40,0,0,0, 0,0,0,0, 0,0,0,0, 0,0,0,0].getD j 0) :=
  dmp_quat_gate_iff _ (by decide)

/-- Claim C4 counterexample: an ellipsoid fit with center `(0,0,0)` and
axis half-lengths `(300, 50, 50)` fails the claimed `5 < ℓ < 200` sanity
check, yet the routine does not abort: `mag.cal` is still written (the
length check only warns). -/
theorem calibrate_mag_finish_writes_despite_bad_length :
    calibrate_mag_finish 0 0 0 300 50 50 =
        .fileWritten 0 0 0 (7/30) (7/5) (7/5) ∧
      calibrate_mag_finish 0 0 0 300 50 50 ≠ .abortCenterOutOfBounds := by
  constructor
  · unfold calibrate_mag_finish
    rw [if_neg (by norm_num)]
    norm_num
  · unfold calibrate_mag_finish
    rw [if_neg (by norm_num)]
    simp

/-- Claim C4 (amended): the routine aborts without touching `mag.cal`
exactly when some center component exceeds 200 in absolute value; an
axis half-length outside `(5, 200)` only produces a warning, and in
every non-aborting case the file is written with the fitted center and
scales `70 / length`. -/
theorem calibrate_mag_finish_spec (c0 c1 c2 l0 l1 l2 : ℚ) :
    (calibrate_mag_finish c0 c1 c2 l0 l1 l2 = .abortCenterOutOfBounds ↔
      |c0| > 200 ∨ |c1| > 200 ∨ |c2| > 200) ∧
    (|c0| ≤ 200 → |c1| ≤ 200 → |c2| ≤ 200 →
      calibrate_mag_finish c0 c1 c2 l0 l1 l2 =
        .fileWritten c0 c1 c2 (70 / l0) (70 / l1) (70 / l2)) := by
  constructor
  · unfold calibrate_mag_finish
    by_cases h : |c0| > 200 ∨ |c1| > 200 ∨ |c2| > 200
    · rw [if_pos h]
      exact iff_of_true rfl h
    · rw [if_neg h]
      refine iff_of_false (fun hc => MagCalOutcome.noConfusion hc) h
  · intro h0 h1 h2
    unfold calibrate_mag_finish
    rw [if_neg (by push_neg; exact ⟨h0, h1, h2⟩)]

/-- Witness for the amended C4 theorem at center `(10, -5, 3)` and
lengths `(40, 45, 50)`. -/
theorem calibrate_mag_finish_spec_witness :
    calibrate_mag_finish 10 (-5) 3 40 45 50 =
      .fileWritten 10 (-5) 3 (70/40) (70/45) (70/50) :=
  (calibrate_mag_finish_spec 10 (-5) 3 40 45 50).2
    (by norm_num) (by norm_num) (by norm_num)

/-- `toInt16` is the identity on the signed 16-bit range. -/
theorem toInt16_eq_self (n : ℤ) (h1 : -(2 ^ 15) ≤ n) (h2 : n < 2 ^ 15) :
    toInt16 n = n := by
  unfold toInt16
  split <;> omega

/-- Truncating division of a nonnegative integer is monotone-bounded:
`a ≤ b * c` with `0 ≤ a`, `0 < c` gives `a.tdiv c ≤ b`. -/
theorem tdiv_le_of_le_mul (a b c : ℤ) (ha : 0 ≤ a) (hc : 0 < c)
    (h : a ≤ b * c) : a.tdiv c ≤ b := by
  rw [Int.tdiv_eq_ediv ha (le_of_lt hc)]
  calc a / c ≤ (b * c) / c := Int.ediv_le_ediv hc h
    _ = b := Int.mul_ediv_cancel b (by omega)

/-- The mean of int16 samples needs no wrap: the `(int16_t)` cast in
`rc_mpu_calibrate_gyro_routine` is the identity there. -/
theorem gyro_cal_offset_eq_mean (samples : List ℤ)
    (hne : samples ≠ [])
    (hr : ∀ v ∈ samples, -(2 ^ 15) ≤ v ∧ v < 2 ^ 15) :
    gyro_cal_offset samples = samples.sum.tdiv samples.length := by
  have hlen : 0 < (samples.length : ℤ) := by
    have : samples.length ≠ 0 := by
      simpa using hne
    omega
  have hlo : -(2 ^ 15) * samples.length ≤ samples.sum := by
    have := List.card_nsmul_le_sum (l := samples) (n := (-(2 ^ 15) : ℤ))
      (fun v hv => (hr v hv).1)
    simpa [nsmul_eq_mul, mul_comm] using this
  have hhi : samples.sum ≤ (2 ^ 15 - 1) * samples.length := by
    have := List.sum_le_card_nsmul (l := samples) (n := ((2 ^ 15 - 1) : ℤ))
      (fun v hv => by have := (hr v hv).2; omega)
    simpa [nsmul_eq_mul, mul_comm] using this
  have hmean : -(2 ^ 15) ≤ samples.sum.tdiv samples.length ∧
      samples.sum.tdiv samples.length < 2 ^ 15 := by
    rcases Int.le_or_lt 0 samples.sum with hs | hs
    · have h0 : 0 ≤ samples.sum.tdiv samples.length :=
        Int.tdiv_nonneg hs (le_of_lt hlen)
      have hub : samples.sum.tdiv samples.length ≤ 2 ^ 15 - 1 :=
        tdiv_le_of_le_mul _ _ _ hs hlen hhi
      omega
    · have hflip : samples.sum.tdiv samples.length =
          -((-samples.sum).tdiv samples.length) := by
        rw [← Int.neg_tdiv, neg_neg]
      have h0 : 0 ≤ (-samples.sum).tdiv samples.length :=
        Int.tdiv_nonneg (by omega) (le_of_lt hlen)
      have hub : (-samples.sum).tdiv samples.length ≤ 2 ^ 15 :=
        tdiv_le_of_le_mul _ _ _ (by omega) hlen (by nlinarith)
      omega
  unfold gyro_cal_offset
  exact toInt16_eq_self _ hmean.1 hmean.2

/-- Claim C5: for nonempty per-axis sample lists in the int16 range,
the persisted `gyro.cal` values are exactly the per-axis truncated
integer means, and `__load_gyro_offets` turns the persisted triple
`(x, y, z)` into the six register bytes
`((-v/4) >> 8) & 0xFF` then `(-v/4) & 0xFF` per axis
(C truncating division, arithmetic shift, low-byte mask); a missing
file yields `x = y = z = 0` and six zero bytes. -/
theorem load_gyro_offets_roundtrip (xs ys zs : List ℤ)
    (hx : xs ≠ []) (hy : ys ≠ []) (hz : zs ≠ [])
    (hrx : ∀ v ∈ xs, -(2 ^ 15) ≤ v ∧ v < 2 ^ 15)
    (hry : ∀ v ∈ ys, -(2 ^ 15) ≤ v ∧ v < 2 ^ 15)
    (hrz : ∀ v ∈ zs, -(2 ^ 15) ≤ v ∧ v < 2 ^ 15) :
    load_gyro_offets (gyro_cal_file xs ys zs) =
      [(((-(xs.sum.tdiv xs.length)).tdiv 4).fdiv (2 ^ 8)) % 2 ^ 8,
       ((-(xs.sum.tdiv xs.length)).tdiv 4) % 2 ^ 8,
       (((-(ys.sum.tdiv ys.length)).tdiv 4).fdiv (2 ^ 8)) % 2 ^ 8,
       ((-(ys.sum.tdiv ys.length)).tdiv 4) % 2 ^ 8,
       (((-(zs.sum.tdiv zs.length)).tdiv 4).fdiv (2 ^ 8)) % 2 ^ 8,
       ((-(zs.sum.tdiv zs.length)).tdiv 4) % 2 ^ 8] ∧
    load_gyro_offets none = [0, 0, 0, 0, 0, 0] := by
  constructor
  · unfold load_gyro_offets gyro_cal_file
    rw [gyro_cal_offset_eq_mean xs hx hrx, gyro_cal_offset_eq_mean ys hy hry,
        gyro_cal_offset_eq_mean zs hz hrz]
    rfl
  · decide

/-- Witness for C5 with concrete stationary-device samples. -/
theorem load_gyro_offets_roundtrip_witness :
    load_gyro_offets (gyro_cal_file [40, 41] [-30, -31] [5, 6]) =
      [(((-(([40, 41] : List ℤ).sum.tdiv 2)).tdiv 4).fdiv (2 ^ 8)) % 2 ^ 8,
       ((-(([40, 41] : List ℤ).sum.tdiv 2)).tdiv 4) % 2 ^ 8,
       (((-(([-30, -31] : List ℤ).sum.tdiv 2)).tdiv 4).fdiv (2 ^ 8)) % 2 ^ 8,
       ((-(([-30, -31] : List ℤ).sum.tdiv 2)).tdiv 4) % 2 ^ 8,
       (((-(([5, 6] : List ℤ).sum.tdiv 2)).tdiv 4).fdiv (2 ^ 8)) % 2 ^ 8,
       ((-(([5, 6] : List ℤ).sum.tdiv 2)).tdiv 4) % 2 ^ 8] ∧
    load_gyro_offets none = [0, 0, 0, 0, 0, 0] :=
  load_gyro_offets_roundtrip [40, 41] [-30, -31] [5, 6]
    (by decide) (by decide) (by decide)
    (by decide) (by decide) (by decide)

/-- Trunc leaves a fractional part strictly inside `(-1, 1)`. -/
theorem sub_ratTrunc_bounds (u : ℚ) :
    -1 < u - ratTrunc u ∧ u - ratTrunc u < 1 := by
  unfold ratTrunc
  split
  · have h1 := Int.floor_le u
    have h2 := Int.lt_floor_add_one u
    constructor <;> linarith
  · have h1 := Int.floor_le (-u)
    have h2 := Int.lt_floor_add_one (-u)
    constructor <;> push_cast <;> linarith

/-- Claim C6 counterexample: with the code's `PI` constant `p₀` and a
filter sum equal to `-p₀`, the published yaw is exactly `-p₀`, which is
not in the claimed half-open interval `(-π, π]`. -/
theorem fused_yaw_reduce_hits_neg_pi :
    fused_yaw_reduce (314159265358979323846 / 10 ^ 20)
        (-(314159265358979323846 / 10 ^ 20)) =
      -(314159265358979323846 / 10 ^ 20) ∧
    ¬(-(314159265358979323846 / 10 ^ 20 : ℚ) <
      fused_yaw_reduce (314159265358979323846 / 10 ^ 20)
        (-(314159265358979323846 / 10 ^ 20))) := by
  have h : fused_yaw_reduce (314159265358979323846 / 10 ^ 20)
      (-(314159265358979323846 / 10 ^ 20)) =
      -(314159265358979323846 / 10 ^ 20) := by
    unfold fused_yaw_reduce fmodQ ratTrunc
    norm_num
  constructor
  · exact h
  · rw [h]
    simp

/-- Claim C6 (amended): after every successful `__data_fusion` tick the
published yaw (`fused_TaitBryan[2]` and `compass_heading`) lies in the
closed interval `[-π, π]`; the lower endpoint `-π` is attained (when the
filter sum is congruent to `-π` mod `2π`), so the interval is closed on
both sides, not half-open. -/
theorem fused_yaw_reduce_mem_Icc (p : ℚ) (hp : 0 < p) (x : ℚ) :
    -p ≤ fused_yaw_reduce p x ∧ fused_yaw_reduce p x ≤ p := by
  have hr : -(2 * p) < fmodQ x (2 * p) ∧ fmodQ x (2 * p) < 2 * p := by
    have h2p : (0 : ℚ) < 2 * p := by linarith
    have hu := sub_ratTrunc_bounds (x / (2 * p))
    have hx : x = 2 * p * (x / (2 * p)) := by
      field_simp
    have hrw : fmodQ x (2 * p) =
        2 * p * (x / (2 * p) - ratTrunc (x / (2 * p))) := by
      unfold fmodQ
      rw [mul_sub]
      rw [← hx]
    constructor
    · rw [hrw]
      nlinarith [hu.1]
    · rw [hrw]
      nlinarith [hu.2]
  unfold fused_yaw_reduce
  split_ifs with h1 h2
  · constructor <;> linarith [hr.1, hr.2]
  · constructor <;> linarith [hr.1, hr.2]
  · push_neg at h1 h2
    exact ⟨h2, h1⟩

/-- Witness for the amended C6 theorem at `p = 3`, `x = 10`. -/
theorem fused_yaw_reduce_mem_Icc_witness :
    -(3 : ℚ) ≤ fused_yaw_reduce 3 10 ∧ fused_yaw_reduce 3 10 ≤ 3 :=
  fused_yaw_reduce_mem_Icc 3 (by norm_num) 10

/-- Claim C7: the solver should pivot on the row of maximum absolute
value and fail exactly when a pivot magnitude is below `zero_tolerance`.
Both parts fail on the code:
* on the pivot column `(1, -5, 2)` the missing `fabs` makes the scan
  store `-5` raw, so the later candidate `2` wins and row 2 is chosen,
  although row 1 holds the maximum magnitude `|-5| = 5`;
* for `A = [[1,0],[0,0]]`, `b = [1,0]` the final pivot `A[1][1] = 0` is
  below every tolerance yet never checked: the solver returns success. -/
theorem lin_system_solve_pivot_bug :
    pivot_search 1 [-5, 2] 0 = 2 ∧
    |(-5 : ℚ)| > |(2 : ℚ)| ∧
    lin_system_solve [[1, 0], [0, 0]] [1, 0] = some [1, 0] := by
  refine ⟨?_, by norm_num, ?_⟩
  · norm_num [pivot_search, pivot_scan]
  · norm_num [lin_system_solve, gauss_steps, pivot_search, pivot_scan,
      col_below, getE, eliminate, swap_suffix, swap_b, zero_tolerance,
      back_sub, List.mapIdx_cons, List.mapIdx_nil]

/-- Claim C8: a payload with `(addr & 0xFF) + n > 256` fails before any
I2C transfer is issued; otherwise exactly the bank-select/start-address
write followed by the n-byte payload transfer happens, and reads are
symmetric to writes. -/
theorem mpu_mem_bank_boundary (addr : ℕ) (data : List ℕ) (len : ℕ) :
    (addr % 256 + data.length > 256 → mpu_write_mem addr data = none) ∧
    (addr % 256 + data.length ≤ 256 →
      mpu_write_mem addr data =
        some [.writeBytes MPU6500_BANK_SEL [(addr >>> 8) % 256, addr % 256],
              .writeBytes MPU6500_MEM_R_W data]) ∧
    (addr % 256 + len > 256 → mpu_read_mem addr len = none) ∧
    (addr % 256 + len ≤ 256 →
      mpu_read_mem addr len =
        some [.writeBytes MPU6500_BANK_SEL [(addr >>> 8) % 256, addr % 256],
              .readBytes MPU6500_MEM_R_W len]) := by
  refine ⟨?_, ?_, ?_, ?_⟩
  · intro h
    unfold mpu_write_mem MPU6500_BANK_SIZE
    rw [if_pos h]
  · intro h
    unfold mpu_write_mem MPU6500_BANK_SIZE
    rw [if_neg (by omega)]
  · intro h
    unfold mpu_read_mem MPU6500_BANK_SIZE
    rw [if_pos h]
  · intro h
    unfold mpu_read_mem MPU6500_BANK_SIZE
    rw [if_neg (by omega)]

/-- Witness for C8: a 16-byte chunk at address `0x0400` stays inside its
bank and issues the two transfers. -/
theorem mpu_mem_bank_boundary_witness :
    mpu_write_mem 0x0400 [1,2,3,4,5,6,7,8,9,10,11,12,13,14,15,16] =
      some [.writeBytes MPU6500_BANK_SEL [(0x0400 >>> 8) % 256, 0x0400 % 256],
            .writeBytes MPU6500_MEM_R_W [1,2,3,4,5,6,7,8,9,10,11,12,13,14,15,16]] :=
  (mpu_mem_bank_boundary 0x0400 [1,2,3,4,5,6,7,8,9,10,11,12,13,14,15,16] 0).2.1
    (by decide)

/-- Claim C9: `rc_mpu_initialize_dmp` never fails on a disallowed DLPF or
FSR value: the substitution block is total — gyro DLPF off/250 Hz becomes
184 Hz, accel DLPF off/460 Hz becomes 184 Hz, the gyro FSR always ends up
2000 dps and the accel FSR always 2 g, every allowed DLPF is kept, and
initialization continues with the substituted configuration. -/
theorem initialize_dmp_range_fixup_spec (c : DmpRangeConf) :
    (initialize_dmp_range_fixup c).gyro_fsr = .dps2000 ∧
    (initialize_dmp_range_fixup c).accel_fsr = .g2 ∧
    ((c.gyro_dlpf = .off ∨ c.gyro_dlpf = .bw250) →
      (initialize_dmp_range_fixup c).gyro_dlpf = .bw184) ∧
    (c.gyro_dlpf ≠ .off → c.gyro_dlpf ≠ .bw250 →
      (initialize_dmp_range_fixup c).gyro_dlpf = c.gyro_dlpf) ∧
    ((c.accel_dlpf = .off ∨ c.accel_dlpf = .bw460) →
      (initialize_dmp_range_fixup c).accel_dlpf = .bw184) ∧
    (c.accel_dlpf ≠ .off → c.accel_dlpf ≠ .bw460 →
      (initialize_dmp_range_fixup c).accel_dlpf = c.accel_dlpf) := by
  refine ⟨?_, ?_, ?_, ?_, ?_, ?_⟩
  · by_cases h : c.gyro_fsr = .dps2000 <;> simp [initialize_dmp_range_fixup, h]
  · by_cases h : c.accel_fsr = .g2 <;> simp [initialize_dmp_range_fixup, h]
  · intro h
    rcases h with h | h <;> simp [initialize_dmp_range_fixup, h]
  · intro h1 h2
    simp [initialize_dmp_range_fixup, h1, h2]
  · intro h
    rcases h with h | h <;> simp [initialize_dmp_range_fixup, h]
  · intro h1 h2
    simp [initialize_dmp_range_fixup, h1, h2]

/-- Witness for C9 at a fully disallowed configuration. -/
theorem initialize_dmp_range_fixup_spec_witness :
    (initialize_dmp_range_fixup ⟨.off, .bw460, .dps500, .g16⟩).gyro_fsr =
        .dps2000 ∧
      (initialize_dmp_range_fixup ⟨.off, .bw460, .dps500, .g16⟩).gyro_dlpf =
        .bw184 :=
  ⟨(initialize_dmp_range_fixup_spec ⟨.off, .bw460, .dps500, .g16⟩).1,
   (initialize_dmp_range_fixup_spec ⟨.off, .bw460, .dps500, .g16⟩).2.2.1
     (Or.inl rfl)⟩

/-- Claim C10: when the ST1 data-ready bit is clear the function returns
0 (success) with the output record untouched; an ST2-overflow sample
returns -1 (also untouched); hence a zero return does not imply that
`data->mag` was updated. -/
theorem rc_mpu_read_mag_status (dataReady overflow : Bool)
    (raw : Fin 7 → ℕ) (adj0 adj1 adj2 rawToUT : ℚ)
    (off0 off1 off2 s0 s1 s2 : ℚ) :
    (dataReady = false →
      rc_mpu_read_mag dataReady overflow raw adj0 adj1 adj2 rawToUT
        off0 off1 off2 s0 s1 s2 = (0, none)) ∧
    (dataReady = true → overflow = true →
      rc_mpu_read_mag dataReady overflow raw adj0 adj1 adj2 rawToUT
        off0 off1 off2 s0 s1 s2 = (-1, none)) ∧
    (dataReady = true → overflow = false →
      (rc_mpu_read_mag dataReady overflow raw adj0 adj1 adj2 rawToUT
        off0 off1 off2 s0 s1 s2).1 = 0 ∧
      (rc_mpu_read_mag dataReady overflow raw adj0 adj1 adj2 rawToUT
        off0 off1 off2 s0 s1 s2).2 ≠ none) := by
  refine ⟨?_, ?_, ?_⟩
  · intro h
    subst h
    rfl
  · intro h1 h2
    subst h1
    subst h2
    rfl
  · intro h1 h2
    subst h1
    subst h2
    exact ⟨rfl, by simp [rc_mpu_read_mag]⟩

/-- Witness for C10: a not-ready tick returns success with no update,
exhibiting a zero return without a `data->mag` write. -/
theorem rc_mpu_read_mag_status_witness :
    rc_mpu_read_mag false false (fun _ => 0) 1 1 1 1 0 0 0 1 1 1 =
      (0, none) :=
  (rc_mpu_read_mag_status false false (fun _ => 0) 1 1 1 1 0 0 0 1 1 1).1 rfl

end RcMpu
